import Mathlib

/-!
Shallow embedding of the SEDB school-equipment booking system.

The backend is the Google Apps Script in `src/components/pages/BookingForm.tsx`
(the `codeString` constant): sheet-row CRUD over a spreadsheet database with a
single global script lock, a booking-conflict check, and a derived-status
computation.  The frontend service and setup flow live in `src/unnamed/part_001`
(`GoogleSheetService`, `App`) and `src/unnamed/part_005` (`handleSaveUrl`).

Modelling conventions:
* A sheet is a list of records; a thrown backend error is `Except.error` (the
  source throws before performing any write on every error path modelled here,
  so an error leaves the sheets unchanged by construction).
* Calendar dates are identified with their day index (the source compares dates
  via `Utilities.formatDate(d, TIMEZONE, "yyyy-MM-dd")` string equality, which
  is day equality); a stored `date` cell that is not a `Date` object is `none`.
* Instants are integers measured in minutes: `new Date(y, mo, d, h, min)` on a
  booking's day becomes `day * 1440 + h * 60 + min`, and JavaScript `Date`
  comparison is integer comparison of such instants.
* `Utilities.computeDigest`/`base64Encode` (an external library digest) is an
  environment parameter `hash : String → String` of the embedding.
-/

namespace SEDB

/-- A row of the Bookings sheet, per `DB_CONFIG.Bookings` and `sheetDataToObject`. -/
structure BookingRec where
  id : String
  userId : String
  type : String
  teacherName : String
  program : String
  classroom : String
  period : Nat
  date : Option Int
  equipment : List String
  learningPlan : String
  status : String
  createdAt : Int
  returnedAt : Option Int
  returnedBy : Option String
  deriving DecidableEq, Repr

/-- A row of the Users sheet, per `DB_CONFIG.Users` (password holds the stored hash). -/
structure UserRec where
  id : String
  name : String
  username : String
  password : String
  role : String
  deriving DecidableEq, Repr

/-- A user record with the password field removed, as `authenticate` returns it. -/
structure UserNoPassword where
  id : String
  name : String
  username : String
  role : String
  deriving DecidableEq, Repr

/-- A row of the Classrooms sheet. -/
structure ClassroomRec where
  id : String
  program : String
  name_th : String
  name_en : String
  deriving DecidableEq, Repr

/-- A row of the Equipment sheet. -/
structure EquipmentRec where
  id : String
  name_th : String
  name_en : String
  deriving DecidableEq, Repr

/-- The spreadsheet database: one list per sheet of `DB_CONFIG`. -/
structure DBState where
  users : List UserRec
  bookings : List BookingRec
  classrooms : List ClassroomRec
  equipment : List EquipmentRec
  deriving DecidableEq, Repr

/-- The terminal-status test `["Returned", "Not Used", "Cancelled"].includes(s)`
used by `calculateBookingStatus` and the conflict check in `addBooking`. -/
def isTerminal (s : String) : Bool :=
  s == "Returned" || s == "Not Used" || s == "Cancelled"

/-- The `periodTimes` table of `calculateBookingStatus`: start and end
(hour, minute) pairs for periods 1 to 6, `none` for any other period. -/
def periodTimes : Nat → Option ((Nat × Nat) × (Nat × Nat))
  | 1 => some ((8, 40), (9, 40))
  | 2 => some ((9, 40), (10, 40))
  | 3 => some ((10, 40), (11, 40))
  | 4 => some ((12, 40), (13, 40))
  | 5 => some ((13, 40), (14, 40))
  | 6 => some ((14, 50), (15, 50))
  | _ => none

/-- The instant `new Date(year, month, day, h, m)` built on a booking's day,
in minutes. -/
def mkInstant (day : Int) (h m : Nat) : Int :=
  day * 1440 + (h * 60 + m : Nat)

/-- The body of `calculateBookingStatus` for a single booking: terminal
statuses and invalid dates or periods are returned unchanged, otherwise the
status is derived from `now` against the period's window on the booking's day. -/
def calcStatus1 (now : Int) (b : BookingRec) : BookingRec :=
  if isTerminal b.status then b
  else
    match b.date with
    | none => b
    | some day =>
      match periodTimes b.period with
      | none => b
      | some ((sh, sm), (eh, em)) =>
        let startTime := mkInstant day sh sm
        let endTime := mkInstant day eh em
        if startTime ≤ now ∧ now ≤ endTime then { b with status := "In Use" }
        else if endTime < now then { b with status := "Pending Return" }
        else { b with status := "Booked" }

/-- `calculateBookingStatus` maps the derivation over a list of bookings. -/
def calculateBookingStatus (now : Int) (bookings : List BookingRec) : List BookingRec :=
  bookings.map (calcStatus1 now)

/-- The add-booking request payload (the fields sent by the frontend); its
`date` string is identified with its day index. -/
structure BookingData where
  userId : String
  type : String
  teacherName : String
  program : String
  classroom : String
  period : Nat
  date : Int
  equipment : List String
  learningPlan : String
  deriving DecidableEq, Repr

/-- The record appended by the add branch of `addOrUpdateRecord` on the
Bookings sheet: the payload plus a generated id, `status = "Booked"` and
`createdAt` set to the current time. -/
def newBookingRec (newId : String) (now : Int) (d : BookingData) : BookingRec :=
  { id := newId, userId := d.userId, type := d.type, teacherName := d.teacherName,
    program := d.program, classroom := d.classroom, period := d.period,
    date := some d.date, equipment := d.equipment, learningPlan := d.learningPlan,
    status := "Booked", createdAt := now, returnedAt := none, returnedBy := none }

/-- The conflict scan of `addBooking`: some stored booking has a valid date
equal to the requested date, the same classroom and period, and a
non-terminal status. -/
def hasConflict (d : BookingData) (bookings : List BookingRec) : Bool :=
  bookings.any fun b =>
    match b.date with
    | none => false
    | some day =>
      day == d.date && b.classroom == d.classroom && b.period == d.period &&
        !(isTerminal b.status)

/-- `addBooking`: throw `Booking conflict` if the scan finds a clash, else
append the new record (the add branch of `addOrUpdateRecord` specialised to
the Bookings sheet). -/
def addBooking (newId : String) (now : Int) (d : BookingData) (db : DBState) :
    Except String (BookingRec × DBState) :=
  if hasConflict d db.bookings then .error "Booking conflict"
  else
    let r := newBookingRec newId now d
    .ok (r, { db with bookings := db.bookings ++ [r] })

/-- A partial update payload for a Bookings row: `some` fields overwrite the
stored row, `none` fields are absent from the spread `{ ...old, ...data }`.
(The call sites modelled here never patch `id` or `createdAt`.) -/
structure BookingPatch where
  userId : Option String := none
  type : Option String := none
  teacherName : Option String := none
  program : Option String := none
  classroom : Option String := none
  period : Option Nat := none
  date : Option Int := none
  equipment : Option (List String) := none
  learningPlan : Option String := none
  status : Option String := none
  returnedAt : Option Int := none
  returnedBy : Option String := none
  deriving DecidableEq, Repr

/-- The spread `{ ...old, ...data }` of the update branch of
`addOrUpdateRecord`. -/
def applyPatch (p : BookingPatch) (b : BookingRec) : BookingRec :=
  { id := b.id, userId := p.userId.getD b.userId, type := p.type.getD b.type,
    teacherName := p.teacherName.getD b.teacherName,
    program := p.program.getD b.program, classroom := p.classroom.getD b.classroom,
    period := p.period.getD b.period,
    date := match p.date with | some v => some v | none => b.date,
    equipment := p.equipment.getD b.equipment,
    learningPlan := p.learningPlan.getD b.learningPlan,
    status := p.status.getD b.status, createdAt := b.createdAt,
    returnedAt := match p.returnedAt with | some v => some v | none => b.returnedAt,
    returnedBy := match p.returnedBy with | some v => some v | none => b.returnedBy }

/-- Find the first row whose `id` matches and overwrite it in place with the
patched row (`findIndex` followed by `setValues` on that row in
`addOrUpdateRecord`); `none` when no row matches. -/
def updateFirst (id : String) (p : BookingPatch) : List BookingRec → Option (BookingRec × List BookingRec)
  | [] => none
  | b :: bs =>
    if b.id == id then
      let u := applyPatch p b
      some (u, u :: bs)
    else
      match updateFirst id p bs with
      | none => none
      | some (u, bs2) => some (u, b :: bs2)

/-- The update branch of `addOrUpdateRecord` specialised to the Bookings
sheet: update the first row with the given id, or throw when it is absent. -/
def updateRecordBookings (id : String) (p : BookingPatch) (db : DBState) :
    Except String (BookingRec × DBState) :=
  match updateFirst id p db.bookings with
  | none => .error ("Record with ID " ++ id ++ " not found in Bookings.")
  | some (u, bs) => .ok (u, { db with bookings := bs })

/-- `updateBooking({id, data})` forwards straight to the update branch of
`addOrUpdateRecord` with no conflict check. -/
def updateBooking (id : String) (p : BookingPatch) (db : DBState) :
    Except String (BookingRec × DBState) :=
  updateRecordBookings id p db

/-- `confirmReturn({bookingId, adminName})`: patch the booking with status
`Returned`, `returnedAt` equal to the current time and `returnedBy` equal to
the admin name. -/
def confirmReturn (now : Int) (bookingId adminName : String) (db : DBState) :
    Except String (BookingRec × DBState) :=
  updateRecordBookings bookingId
    { status := some "Returned", returnedAt := some now, returnedBy := some adminName } db

/-- `cancelBooking({bookingId, userId})`: throw when the id is absent or the
stored status is not `Booked`, otherwise patch the status to `Not Used`. -/
def cancelBooking (bookingId : String) (db : DBState) :
    Except String (BookingRec × DBState) :=
  match db.bookings.find? (fun b => b.id == bookingId) with
  | none => .error "Booking not found"
  | some b =>
    if b.status == "Booked" then
      updateRecordBookings bookingId { status := some "Not Used" } db
    else .error "Cannot cancel a booking that is already in use or completed."

/-- Remove the first row whose `id` matches (`findIndex` followed by
`deleteRow` in `deleteRecord`); `none` when no row matches. -/
def deleteFirst (id : String) : List BookingRec → Option (List BookingRec)
  | [] => none
  | b :: bs =>
    if b.id == id then some bs
    else
      match deleteFirst id bs with
      | none => none
      | some bs2 => some (b :: bs2)

/-- `deleteBooking({id})` via `deleteRecord` on the Bookings sheet. -/
def deleteBooking (id : String) (db : DBState) : Except String DBState :=
  match deleteFirst id db.bookings with
  | none => .error ("Record with ID " ++ id ++ " not found.")
  | some bs => .ok { db with bookings := bs }

/-- The `{ password, ...userWithoutPassword }` destructuring in `authenticate`. -/
def stripPassword (u : UserRec) : UserNoPassword :=
  { id := u.id, name := u.name, username := u.username, role := u.role }

/-- `verifyPassword(password, hash)` compares the digest of the supplied
password with the stored hash; the digest is the environment parameter. -/
def verifyPassword (hash : String → String) (password storedHash : String) : Bool :=
  hash password == storedHash

/-- `authenticate({username, password})`: find the first user row with the given
username, return it without its password when the digest matches, else null.
It performs no sheet write (it only reads the Users sheet). -/
def authenticate (hash : String → String) (users : List UserRec)
    (username password : String) : Option UserNoPassword :=
  match users.find? (fun u => u.username == username) with
  | none => none
  | some u =>
    if verifyPassword hash password u.password then some (stripPassword u) else none

/-! ### The frontend setup flow and `GoogleSheetService` URL lookup -/

/-- The browser localStorage, as an association list of key-value pairs. -/
def Storage := List (String × String)

/-- `localStorage.getItem`. -/
def getItem (s : Storage) (k : String) : Option String :=
  (List.find? (fun q => q.1 == k) s).map (fun q => q.2)

/-- `localStorage.setItem`. -/
def setItem (s : Storage) (k v : String) : Storage :=
  (k, v) :: List.filter (fun q => q.1 != k) s

/-- The literal localStorage key read by `GoogleSheetService.getScriptUrl`. -/
def scriptUrlKey : String :=
  "https://script.google.com/macros/s/AKfycbwWPYD-ZtPi61mPOZtMPlJl-elP1tFIRVbrNtGRusqCIBE0bSRZt3BMd0NyL5Yf0OI8/exec"

/-- The localStorage key written by the setup page and checked by `App`. -/
def setupKey : String := "google_script_url"

/-- `GoogleSheetService.getScriptUrl`: read `scriptUrlKey` from localStorage
and throw when the value is absent or falsy (the empty string). -/
def getScriptUrl (s : Storage) : Except String String :=
  match getItem s scriptUrlKey with
  | none => .error "Google Apps Script URL is not configured. Please complete the setup."
  | some url =>
    if url == "" then
      .error "Google Apps Script URL is not configured. Please complete the setup."
    else .ok url

/-- The URL validation of `handleSaveUrl` on the setup page: the URL is
truthy and starts with the web-app prefix (the character-level prefix test of
JavaScript `String.prototype.startsWith`). -/
def isValidScriptUrl (url : String) : Bool :=
  url != "" && List.isPrefixOf "https://script.google.com/macros/s/".data url.data

/-- `handleSaveUrl`: store a valid web-app URL under `google_script_url`
(then reload); an invalid URL only shows an error dialog. -/
def handleSaveUrl (url : String) (s : Storage) : Storage :=
  if isValidScriptUrl url then setItem s setupKey url else s

/-- The `App` component's gate past the setup page:
`localStorage.getItem("google_script_url")` is present. -/
def appUrlIsSet (s : Storage) : Bool :=
  (getItem s setupKey).isSome

/-- `GoogleSheetService.apiRequest`: resolve the configured script URL
(rethrowing its configuration error) and then perform the network request,
which is the environment parameter `fetchUrl`. -/
def apiRequest (fetchUrl : String → String → Except String String) (s : Storage)
    (action : String) : Except String String :=
  match getScriptUrl s with
  | .error e => .error e
  | .ok url => fetchUrl url action

/-! ### Reporting -/

/-- The relation `createdAt of the left is at least createdAt of the right`:
the descending comparator `new Date(b.createdAt) - new Date(a.createdAt)` of
`getBookingsWithStatus`. -/
def newerFirst (a b : BookingRec) : Prop := b.createdAt ≤ a.createdAt

instance : DecidableRel newerFirst := fun a b =>
  inferInstanceAs (Decidable (b.createdAt ≤ a.createdAt))

instance : IsTotal BookingRec newerFirst :=
  ⟨fun a b => le_total b.createdAt a.createdAt⟩

instance : IsTrans BookingRec newerFirst :=
  ⟨fun _ _ _ h1 h2 => le_trans h2 h1⟩

/-- The stable descending-by-createdAt sort of `getBookingsWithStatus`. -/
def sortByCreatedAtDesc (l : List BookingRec) : List BookingRec :=
  List.insertionSort newerFirst l

/-- `getBookingsWithStatus`: all bookings sorted newest-first, then the
derived status applied. -/
def getBookingsWithStatus (now : Int) (db : DBState) : List BookingRec :=
  calculateBookingStatus now (sortByCreatedAtDesc db.bookings)

/-- The report filter object; `none` models a filter key that is omitted or
holds a falsy value (the empty string), which the source skips. -/
structure ReportFilters where
  startDate : Option Int := none
  endDate : Option Int := none
  program : Option String := none
  teacherId : Option String := none
  equipmentId : Option String := none
  deriving DecidableEq, Repr

/-- One conditional `if (filters.x) data = data.filter(test)` step of
`getReportData`. -/
def optFilter {γ : Type} (o : Option γ) (test : γ → BookingRec → Bool)
    (l : List BookingRec) : List BookingRec :=
  match o with
  | none => l
  | some x => l.filter (test x)

/-- The start-date test `b.date && new Date(b.date) >= startDate` at day
granularity. -/
def startDateTest (sd : Int) (b : BookingRec) : Bool :=
  match b.date with
  | none => false
  | some day => decide (sd ≤ day)

/-- The end-date test `b.date && new Date(b.date) <= endDate` at day
granularity. -/
def endDateTest (ed : Int) (b : BookingRec) : Bool :=
  match b.date with
  | none => false
  | some day => decide (day ≤ ed)

/-- `getReportData(filters)`: derived-status bookings, newest first, filtered
sequentially by each provided filter. -/
def getReportData (now : Int) (f : ReportFilters) (db : DBState) : List BookingRec :=
  let data := getBookingsWithStatus now db
  let d1 := optFilter f.startDate startDateTest data
  let d2 := optFilter f.endDate endDateTest d1
  let d3 := optFilter f.program (fun p b => b.program == p) d2
  let d4 := optFilter f.teacherId (fun t b => b.userId == t) d3
  optFilter f.equipmentId (fun e b => b.equipment.contains e) d4

/-! ### The script lock around sheet writes

`addOrUpdateRecord` and `deleteRecord` run `SCRIPT_LOCK.waitLock(15000)` and
then a `try` block whose `finally` releases the lock; every row write
(`appendRow`, `setValues`, `deleteRow`) sits inside the `try` block.  The
event trace of one call is modelled below; mutual exclusion of writes follows
from every write being performed between `acquire` and `release` of the single
global lock. -/

/-- Lock and sheet events emitted by one backend CRUD call. -/
inductive Ev
  | acquire
  | release
  | readSheet
  | writeRow
  deriving DecidableEq, Repr

/-- The event trace of `addOrUpdateRecord`: if `waitLock` times out nothing
runs; otherwise acquire, read the sheet, write the row (append, or the updated
row when the id is found; a missing id throws before any write), and release
in the `finally` block on success and failure alike. -/
def addOrUpdateRecordEvents (lockOk isUpdate found : Bool) : List Ev :=
  if lockOk then
    .acquire :: .readSheet ::
      ((if isUpdate then (if found then [Ev.writeRow] else []) else [Ev.writeRow]) ++
        [Ev.release])
  else []

/-- The event trace of `deleteRecord`, analogous to `addOrUpdateRecordEvents`. -/
def deleteRecordEvents (lockOk found : Bool) : List Ev :=
  if lockOk then
    .acquire :: .readSheet ::
      ((if found then [Ev.writeRow] else []) ++ [Ev.release])
  else []

/-- Check that every `writeRow` in a trace happens while the lock is held. -/
def writesLocked : Bool → List Ev → Bool
  | _, [] => true
  | _, .acquire :: es => writesLocked true es
  | _, .release :: es => writesLocked false es
  | held, .readSheet :: es => writesLocked held es
  | held, .writeRow :: es => held && writesLocked held es

/-- Check that the lock is not held once the trace is over. -/
def endsUnlocked : Bool → List Ev → Bool
  | held, [] => !held
  | _, .acquire :: es => endsUnlocked true es
  | _, .release :: es => endsUnlocked false es
  | held, .readSheet :: es => endsUnlocked held es
  | held, .writeRow :: es => endsUnlocked held es

/-! ### Slot invariant -/

/-- A booking that still occupies its slot (its status is not terminal). -/
def nonTerminal (b : BookingRec) : Bool := !(isTerminal b.status)

/-- Two bookings claim the same (classroom, date, period) slot. -/
def sameSlot (a b : BookingRec) : Bool :=
  a.classroom == b.classroom && a.date == b.date && a.period == b.period

/-- No booking in the list clashes with `b` on its slot while non-terminal. -/
def slotFree (b : BookingRec) (bs : List BookingRec) : Bool :=
  bs.all fun c => !(nonTerminal c && sameSlot b c)

/-- At most one non-terminal booking exists per (classroom, date, period). -/
def slotInvariant : List BookingRec → Bool
  | [] => true
  | b :: bs => (!(nonTerminal b) || slotFree b bs) && slotInvariant bs

/-! ### Specification-side definitions (from the claims' wording) -/

/-- Modelled from the spec: the fixed per-period windows exactly as the claim
lists them (period 1: 08:40-09:40, 2: 09:40-10:40, 3: 10:40-11:40,
4: 12:40-13:40, 5: 13:40-14:40, 6: 14:50-15:50). -/
def claimWindow : Nat → (Nat × Nat) × (Nat × Nat)
  | 1 => ((8, 40), (9, 40))
  | 2 => ((9, 40), (10, 40))
  | 3 => ((10, 40), (11, 40))
  | 4 => ((12, 40), (13, 40))
  | 5 => ((13, 40), (14, 40))
  | 6 => ((14, 50), (15, 50))
  | _ => ((0, 0), (0, 0))

/-- Modelled from the spec: the claimed status derivation; `In Use` when now
is at or after the window start and at or before the window end,
`Pending Return` when now is strictly after the window end, `Booked`
otherwise. -/
def claimDerivedStatus (now s e : Int) : String :=
  if s ≤ now ∧ now ≤ e then "In Use"
  else if e < now then "Pending Return"
  else "Booked"

/-- Modelled from the spec: the claimed derived status of a booking of period
`p` on day `day` at instant `now`, via `claimWindow` and
`claimDerivedStatus`. -/
def claimStatusFor (now day : Int) (p : Nat) : String :=
  claimDerivedStatus now
    (mkInstant day (claimWindow p).1.1 (claimWindow p).1.2)
    (mkInstant day (claimWindow p).2.1 (claimWindow p).2.2)

/-! ### Concrete fixtures used by witnesses and counterexamples -/

/-- A stored booking for period 2 on day 10 of classroom R1. -/
def exBooking : BookingRec :=
  { id := "b1", userId := "u1", type := "Booking", teacherName := "T",
    program := "Thai Programme", classroom := "R1", period := 2, date := some 10,
    equipment := ["e1"], learningPlan := "L", status := "Booked", createdAt := 5,
    returnedAt := none, returnedBy := none }

/-- A second stored booking in a different slot (classroom R2, period 3). -/
def exBooking2 : BookingRec :=
  { exBooking with id := "b2", classroom := "R2", period := 3, createdAt := 7 }

/-- A booking already returned. -/
def exReturned : BookingRec :=
  { exBooking with
    id := "b3", status := "Returned", returnedAt := some 90,
    returnedBy := some "A" }

/-- A booking with a period outside the table. -/
def exBooking7 : BookingRec := { exBooking with id := "b7", period := 7 }

/-- A request clashing with `exBooking` on classroom, period and date. -/
def exData : BookingData :=
  { userId := "u2", type := "Booking", teacherName := "T2",
    program := "Thai Programme", classroom := "R1", period := 2, date := 10,
    equipment := ["e1"], learningPlan := "L2" }

/-- A request for a free slot (period 4). -/
def exData2 : BookingData := { exData with period := 4 }

/-- A database holding the single booking `exBooking`. -/
def exDB : DBState := { users := [], bookings := [exBooking], classrooms := [], equipment := [] }

/-- A database holding `exBooking` and the returned `exReturned`. -/
def exDBr : DBState :=
  { users := [], bookings := [exBooking, exReturned], classrooms := [], equipment := [] }

/-- A database holding two bookings in distinct slots. -/
def exDBpair : DBState :=
  { users := [], bookings := [exBooking, exBooking2], classrooms := [], equipment := [] }

/-- The update payload moving a booking onto the slot of `exBooking`. -/
def clashPatch : BookingPatch :=
  { classroom := some "R1", period := some 2, date := some 10 }

/-- A concrete stand-in digest used only to instantiate the `hash` environment
parameter at closed inputs; the properties proved about `authenticate` hold
for every digest function, SHA-256-then-base64 included. -/
def plainHash (s : String) : String := s

/-- A user row. -/
def exUser1 : UserRec := { id := "1", name := "n1", username := "u", password := "b", role := "teacher" }

/-- A second user row sharing the username of `exUser1`. -/
def exUser2 : UserRec := { id := "2", name := "n2", username := "u", password := "a", role := "teacher" }

/-- A Users sheet with two rows sharing one username. -/
def dupUsers : List UserRec := [exUser1, exUser2]

/-! ### Helper lemmas -/

/-- `find?` returns the head of the suffix when nothing in the prefix matches. -/
theorem find_append_first {α : Type} (p : α → Bool) (pre : List α) (x : α)
    (post : List α) (hx : p x = true) (hpre : ∀ y ∈ pre, p y = false) :
    List.find? p (pre ++ x :: post) = some x := by
  induction pre with
  | nil => simp [List.find?_cons, hx]
  | cons a l ih =>
    have ha : p a = false := hpre a (by simp)
    simp only [List.cons_append, List.find?_cons, ha]
    exact ih fun y hy => hpre y (by simp [hy])

/-- The scan of `hasConflict` succeeds exactly on the clash the claim
describes. -/
theorem hasConflict_iff (d : BookingData) (bs : List BookingRec) :
    hasConflict d bs = true ↔
      ∃ b ∈ bs, b.classroom = d.classroom ∧ b.period = d.period ∧
        b.date = some d.date ∧ isTerminal b.status = false := by
  unfold hasConflict
  rw [List.any_eq_true]
  constructor
  · rintro ⟨b, hb, hp⟩
    refine ⟨b, hb, ?_⟩
    cases hd : b.date with
    | none => rw [hd] at hp; simp at hp
    | some day =>
      rw [hd] at hp
      simp only [Bool.and_eq_true, beq_iff_eq, Bool.not_eq_true'] at hp
      exact ⟨hp.1.1.2, hp.1.2, by rw [hp.1.1.1], hp.2⟩
  · rintro ⟨b, hb, hcl, hper, hd, hterm⟩
    refine ⟨b, hb, ?_⟩
    rw [hd]
    simp [hcl, hper, hterm]

/-- `updateFirst` fails exactly when no row carries the id. -/
theorem updateFirst_eq_none (id : String) (p : BookingPatch) (bs : List BookingRec)
    (h : ∀ b ∈ bs, b.id ≠ id) : updateFirst id p bs = none := by
  induction bs with
  | nil => rfl
  | cons b l ih =>
    have hb : (b.id == id) = false := beq_eq_false_iff_ne.mpr (h b (by simp))
    simp only [updateFirst, hb, Bool.false_eq_true, if_false]
    rw [ih fun c hc => h c (by simp [hc])]

/-- `updateFirst` patches the first row with the id, in place. -/
theorem updateFirst_append (id : String) (p : BookingPatch) (pre : List BookingRec)
    (b : BookingRec) (post : List BookingRec) (hb : b.id = id)
    (hpre : ∀ c ∈ pre, c.id ≠ id) :
    updateFirst id p (pre ++ b :: post) =
      some (applyPatch p b, pre ++ applyPatch p b :: post) := by
  induction pre with
  | nil => simp [updateFirst, hb]
  | cons a l ih =>
    have ha : (a.id == id) = false := beq_eq_false_iff_ne.mpr (hpre a (by simp))
    simp only [List.cons_append, updateFirst, ha, Bool.false_eq_true, if_false,
      List.append_eq]
    rw [ih fun c hc => hpre c (by simp [hc])]

/-- `deleteFirst` fails exactly when no row carries the id. -/
theorem deleteFirst_eq_none (id : String) (bs : List BookingRec)
    (h : ∀ b ∈ bs, b.id ≠ id) : deleteFirst id bs = none := by
  induction bs with
  | nil => rfl
  | cons b l ih =>
    have hb : (b.id == id) = false := beq_eq_false_iff_ne.mpr (h b (by simp))
    simp only [deleteFirst, hb, Bool.false_eq_true, if_false]
    rw [ih fun c hc => h c (by simp [hc])]

/-- Appending a booking that clashes with no stored non-terminal booking
preserves the slot invariant. -/
theorem slotInvariant_append (bs : List BookingRec) (r : BookingRec)
    (hinv : slotInvariant bs = true)
    (hno : ∀ c ∈ bs, nonTerminal c = true → sameSlot c r = false) :
    slotInvariant (bs ++ [r]) = true := by
  induction bs with
  | nil => simp [slotInvariant, slotFree, List.all_nil]
  | cons b l ih =>
    simp only [slotInvariant, Bool.and_eq_true] at hinv
    simp only [List.cons_append, slotInvariant, Bool.and_eq_true]
    refine ⟨?_, ih hinv.2 fun c hc => hno c (by simp [hc])⟩
    by_cases hb : nonTerminal b = true
    · have h1 : slotFree b l = true := by
        rcases Bool.or_eq_true_iff.mp hinv.1 with h | h
        · rw [hb] at h; simp at h
        · exact h
      have h2 : sameSlot b r = false := hno b (by simp) hb
      refine Bool.or_eq_true_iff.mpr (Or.inr ?_)
      unfold slotFree at h1 ⊢
      rw [List.append_eq, List.all_append, h1]
      simp [h2]
    · simp only [Bool.not_eq_true] at hb
      simp [hb]

/-- Replacing the first row with a given id by a terminal patched row keeps a
slot free. -/
theorem slotFree_updateFirst (b : BookingRec) (id : String) (p : BookingPatch)
    (hp : ∀ x : BookingRec, nonTerminal (applyPatch p x) = false) :
    ∀ bs u bs2, updateFirst id p bs = some (u, bs2) →
      slotFree b bs = true → slotFree b bs2 = true := by
  intro bs
  induction bs with
  | nil => intro u bs2 h _; simp [updateFirst] at h
  | cons c l ih =>
    intro u bs2 h hfree
    simp only [slotFree, List.all_cons, Bool.and_eq_true] at hfree
    by_cases hc : (c.id == id) = true
    · simp only [updateFirst, hc, if_true, Option.some.injEq, Prod.mk.injEq] at h
      obtain ⟨h1, h2⟩ := h
      subst h1
      subst h2
      simp only [slotFree, List.all_cons, Bool.and_eq_true]
      refine ⟨?_, hfree.2⟩
      simp [hp c]
    · simp only [updateFirst, hc, Bool.false_eq_true, if_false] at h
      cases hrec : updateFirst id p l with
      | none => rw [hrec] at h; simp at h
      | some v =>
        obtain ⟨u2, l2⟩ := v
        rw [hrec] at h
        simp only [Option.some.injEq, Prod.mk.injEq] at h
        obtain ⟨h1, h2⟩ := h
        subst h1
        subst h2
        simp only [slotFree, List.all_cons, Bool.and_eq_true]
        exact ⟨hfree.1, ih _ l2 hrec hfree.2⟩

/-- Replacing the first row with a given id by a terminal patched row
preserves the slot invariant. -/
theorem slotInvariant_updateFirst (id : String) (p : BookingPatch)
    (hp : ∀ b : BookingRec, nonTerminal (applyPatch p b) = false) :
    ∀ bs u bs2, updateFirst id p bs = some (u, bs2) → slotInvariant bs = true →
      slotInvariant bs2 = true := by
  intro bs
  induction bs with
  | nil => intro u bs2 h _; simp [updateFirst] at h
  | cons c l ih =>
    intro u bs2 h hinv
    simp only [slotInvariant, Bool.and_eq_true] at hinv
    by_cases hc : (c.id == id) = true
    · simp only [updateFirst, hc, if_true, Option.some.injEq, Prod.mk.injEq] at h
      obtain ⟨h1, h2⟩ := h
      subst h1
      subst h2
      simp only [slotInvariant, Bool.and_eq_true]
      refine ⟨?_, hinv.2⟩
      simp [hp c]
    · simp only [updateFirst, hc, Bool.false_eq_true, if_false] at h
      cases hrec : updateFirst id p l with
      | none => rw [hrec] at h; simp at h
      | some v =>
        obtain ⟨u2, l2⟩ := v
        rw [hrec] at h
        simp only [Option.some.injEq, Prod.mk.injEq] at h
        obtain ⟨h1, h2⟩ := h
        subst h1
        subst h2
        simp only [slotInvariant, Bool.and_eq_true]
        refine ⟨?_, ih _ l2 hrec hinv.2⟩
        rcases Bool.or_eq_true_iff.mp hinv.1 with hcc | hcc
        · exact Bool.or_eq_true_iff.mpr (Or.inl hcc)
        · exact Bool.or_eq_true_iff.mpr
            (Or.inr (slotFree_updateFirst c id p hp l _ l2 hrec hcc))

/-- Removing a row keeps a slot free. -/
theorem slotFree_deleteFirst (b : BookingRec) (id : String) :
    ∀ bs bs2, deleteFirst id bs = some bs2 →
      slotFree b bs = true → slotFree b bs2 = true := by
  intro bs
  induction bs with
  | nil => intro bs2 h _; simp [deleteFirst] at h
  | cons c l ih =>
    intro bs2 h hfree
    simp only [slotFree, List.all_cons, Bool.and_eq_true] at hfree
    by_cases hc : (c.id == id) = true
    · simp only [deleteFirst, hc, if_true, Option.some.injEq] at h
      subst h
      exact hfree.2
    · simp only [deleteFirst, hc, Bool.false_eq_true, if_false] at h
      cases hrec : deleteFirst id l with
      | none => rw [hrec] at h; simp at h
      | some l2 =>
        rw [hrec] at h
        simp only [Option.some.injEq] at h
        subst h
        simp only [slotFree, List.all_cons, Bool.and_eq_true]
        exact ⟨hfree.1, ih l2 hrec hfree.2⟩

/-- Removing a row preserves the slot invariant. -/
theorem slotInvariant_deleteFirst (id : String) :
    ∀ bs bs2, deleteFirst id bs = some bs2 → slotInvariant bs = true →
      slotInvariant bs2 = true := by
  intro bs
  induction bs with
  | nil => intro bs2 h _; simp [deleteFirst] at h
  | cons c l ih =>
    intro bs2 h hinv
    simp only [slotInvariant, Bool.and_eq_true] at hinv
    by_cases hc : (c.id == id) = true
    · simp only [deleteFirst, hc, if_true, Option.some.injEq] at h
      subst h
      exact hinv.2
    · simp only [deleteFirst, hc, Bool.false_eq_true, if_false] at h
      cases hrec : deleteFirst id l with
      | none => rw [hrec] at h; simp at h
      | some l2 =>
        rw [hrec] at h
        simp only [Option.some.injEq] at h
        subst h
        simp only [slotInvariant, Bool.and_eq_true]
        refine ⟨?_, ih l2 hrec hinv.2⟩
        rcases Bool.or_eq_true_iff.mp hinv.1 with hcc | hcc
        · simp [hcc]
        · exact Bool.or_eq_true_iff.mpr (Or.inr (slotFree_deleteFirst c id l l2 hrec hcc))

/-- When the conflict scan fails, no stored non-terminal booking shares the
requested slot with the new record. -/
theorem hasConflict_false_slot (newId : String) (now : Int) (d : BookingData)
    (bs : List BookingRec) (h : hasConflict d bs = false) :
    ∀ c ∈ bs, nonTerminal c = true → sameSlot c (newBookingRec newId now d) = false := by
  intro c hc hnt
  cases hss : sameSlot c (newBookingRec newId now d)
  · rfl
  · exfalso
    simp only [sameSlot, newBookingRec, Bool.and_eq_true, beq_iff_eq] at hss
    unfold hasConflict at h
    rw [List.any_eq_false] at h
    have hcp := h c hc
    rw [hss.1.2] at hcp
    simp only [beq_self_eq_true, Bool.true_and] at hcp
    simp only [nonTerminal, Bool.not_eq_true'] at hnt
    simp [hss.1.1, hss.2, hnt] at hcp

/-! ### Claim theorems -/

/-- C1: `addBooking` throws `Booking conflict` if and only if the Bookings
sheet already holds a booking with the same classroom, period and date whose
status is not Returned, Not Used or Cancelled; otherwise it appends exactly
one new row carrying a fresh id, status `Booked` and `createdAt` equal to the
current time, all other sheets untouched.  (A thrown error produces no state
in this embedding, which is how the source behaves: the conflict check runs
before any write.) -/
theorem addBooking_spec (newId : String) (now : Int) (d : BookingData) (db : DBState)
    (hfresh : ∀ b ∈ db.bookings, b.id ≠ newId) :
    (addBooking newId now d db = .error "Booking conflict" ↔
      ∃ b ∈ db.bookings, b.classroom = d.classroom ∧ b.period = d.period ∧
        b.date = some d.date ∧ isTerminal b.status = false) ∧
    ((¬ ∃ b ∈ db.bookings, b.classroom = d.classroom ∧ b.period = d.period ∧
        b.date = some d.date ∧ isTerminal b.status = false) →
      ∃ r, addBooking newId now d db =
          .ok (r, { db with bookings := db.bookings ++ [r] }) ∧
        r.id = newId ∧ (∀ b ∈ db.bookings, b.id ≠ r.id) ∧
        r.status = "Booked" ∧ r.createdAt = now) := by
  constructor
  · rw [← hasConflict_iff]
    unfold addBooking
    by_cases h : hasConflict d db.bookings = true
    · simp [h]
    · simp [h]
  · intro hno
    rw [← hasConflict_iff] at hno
    have h : hasConflict d db.bookings = false := by simpa using hno
    refine ⟨newBookingRec newId now d, ?_, rfl, ?_, rfl, rfl⟩
    · simp only [addBooking, h, Bool.false_eq_true, if_false]
    · intro b hb
      exact hfresh b hb

/-- C1 witness: on a one-booking database the clashing request is rejected
with `Booking conflict` and the request for a free period appends a fresh
`Booked` row. -/
theorem addBooking_spec_witness :
    addBooking "n1" 50 exData exDB = .error "Booking conflict" ∧
    (∃ r, addBooking "n1" 50 exData2 exDB =
        .ok (r, { exDB with bookings := exDB.bookings ++ [r] }) ∧
      r.id = "n1" ∧ r.status = "Booked" ∧ r.createdAt = 50) := by
  constructor
  · exact (addBooking_spec "n1" 50 exData exDB (by decide)).1.mpr
      ⟨exBooking, by decide, by decide, by decide, by decide, by decide⟩
  · obtain ⟨r, heq, hid, _, hst, hca⟩ :=
      (addBooking_spec "n1" 50 exData2 exDB (by decide)).2 (by decide)
    exact ⟨r, heq, hid, hst, hca⟩

/-- C2: for a stored booking with a non-terminal status, a valid date and a
period in 1..6, `calculateBookingStatus` derives the status from the current
time against the fixed window of the claim (period 1: 08:40-09:40,
2: 09:40-10:40, 3: 10:40-11:40, 4: 12:40-13:40, 5: 13:40-14:40,
6: 14:50-15:50) on the booking's day: `In Use` inside the window inclusive,
`Pending Return` strictly after its end, `Booked` otherwise; a booking with a
period outside 1..6 or an invalid date is returned unchanged. -/
theorem calcStatus_window_spec (now : Int) (b : BookingRec) :
    (∀ day : Int, isTerminal b.status = false → b.date = some day →
      1 ≤ b.period → b.period ≤ 6 →
      calcStatus1 now b = { b with status := claimStatusFor now day b.period }) ∧
    ((b.date = none ∨ b.period = 0 ∨ 7 ≤ b.period) → calcStatus1 now b = b) := by
  constructor
  · intro day hterm hdate h1 h6
    obtain ⟨bid, buid, bty, btn, bpr, bcl, period, bdate, beq2, blp, bst, bca, bra, brb⟩ := b
    simp only at hterm hdate h1 h6 ⊢
    subst hdate
    interval_cases period <;>
      · simp only [calcStatus1, periodTimes, claimStatusFor, claimWindow,
          claimDerivedStatus, hterm, Bool.false_eq_true, if_false]
        split_ifs <;> rfl
  · intro h
    rcases h with hd | hp
    · by_cases ht : isTerminal b.status = true
      · simp [calcStatus1, ht]
      · simp only [Bool.not_eq_true] at ht
        simp [calcStatus1, ht, hd]
    · have hnone : periodTimes b.period = none := by
        rcases hp with h0 | h7
        · rw [h0]; rfl
        · obtain ⟨k, hk⟩ : ∃ k, b.period = k + 7 := ⟨b.period - 7, by omega⟩
          rw [hk]; rfl
      by_cases ht : isTerminal b.status = true
      · simp [calcStatus1, ht]
      · simp only [Bool.not_eq_true] at ht
        cases hd : b.date with
        | none => simp [calcStatus1, ht, hd]
        | some day => simp [calcStatus1, ht, hd, hnone]

/-- C2 witness: at 10:00 on day 10 the period-2 booking derives `In Use`, and
a period-7 booking is returned unchanged. -/
theorem calcStatus_window_spec_witness :
    calcStatus1 15000 exBooking = { exBooking with status := "In Use" } ∧
    calcStatus1 15000 exBooking7 = exBooking7 := by
  constructor
  · have h := (calcStatus_window_spec 15000 exBooking).1 10 (by decide) rfl
      (by decide) (by decide)
    rw [h]
    decide
  · exact (calcStatus_window_spec 15000 exBooking7).2 (Or.inr (Or.inr (by decide)))

/-- C4: a booking whose stored status is `Returned` or `Not Used` is returned
by `calculateBookingStatus` completely unchanged, whatever the current time,
date or period. -/
theorem calcStatus_terminal_spec (now : Int) (b : BookingRec)
    (h : b.status = "Returned" ∨ b.status = "Not Used") :
    calcStatus1 now b = b := by
  have ht : isTerminal b.status = true := by
    rcases h with h | h <;> rw [h] <;> decide
  simp [calcStatus1, ht]

/-- C4 witness: the returned booking is untouched at an arbitrary instant. -/
theorem calcStatus_terminal_spec_witness :
    calcStatus1 123456 exReturned = exReturned :=
  calcStatus_terminal_spec 123456 exReturned (Or.inl (by decide))

/-- C3 (amended): `addBooking`, `cancelBooking`, `confirmReturn` and
`deleteBooking` preserve the invariant that at most one booking with a status
outside Returned, Not Used, Cancelled exists per (classroom, date, period);
`updateBooking` does not (it runs no conflict check and can move a booking
onto an occupied slot, see the counterexample). -/
theorem mutators_preserve_slotInvariant (db : DBState)
    (hinv : slotInvariant db.bookings = true) :
    (∀ newId now d r db2, addBooking newId now d db = .ok (r, db2) →
      slotInvariant db2.bookings = true) ∧
    (∀ bid r db2, cancelBooking bid db = .ok (r, db2) →
      slotInvariant db2.bookings = true) ∧
    (∀ now bid an r db2, confirmReturn now bid an db = .ok (r, db2) →
      slotInvariant db2.bookings = true) ∧
    (∀ bid db2, deleteBooking bid db = .ok db2 →
      slotInvariant db2.bookings = true) := by
  refine ⟨?_, ?_, ?_, ?_⟩
  · intro newId now d r db2 h
    unfold addBooking at h
    by_cases hc : hasConflict d db.bookings = true
    · simp [hc] at h
    · have hcf : hasConflict d db.bookings = false := by simpa using hc
      simp only [hcf, Bool.false_eq_true, if_false, Except.ok.injEq, Prod.mk.injEq] at h
      obtain ⟨h1, h2⟩ := h
      subst h2
      exact slotInvariant_append db.bookings (newBookingRec newId now d) hinv
        (hasConflict_false_slot newId now d db.bookings hcf)
  · intro bid r db2 h
    unfold cancelBooking at h
    cases hf : db.bookings.find? (fun b => b.id == bid) with
    | none => rw [hf] at h; simp at h
    | some b =>
      rw [hf] at h
      dsimp only at h
      by_cases hb : (b.status == "Booked") = true
      · rw [if_pos hb] at h
        unfold updateRecordBookings at h
        cases hu : updateFirst bid { status := some "Not Used" } db.bookings with
        | none => rw [hu] at h; simp at h
        | some v =>
          obtain ⟨u, bs⟩ := v
          rw [hu] at h
          simp only [Except.ok.injEq, Prod.mk.injEq] at h
          obtain ⟨h1, h2⟩ := h
          subst h2
          exact slotInvariant_updateFirst bid { status := some "Not Used" }
            (fun x => rfl) db.bookings u bs hu hinv
      · rw [if_neg hb] at h
        simp at h
  · intro now bid an r db2 h
    unfold confirmReturn updateRecordBookings at h
    cases hu : updateFirst bid
        { status := some "Returned", returnedAt := some now, returnedBy := some an }
        db.bookings with
    | none => rw [hu] at h; simp at h
    | some v =>
      obtain ⟨u, bs⟩ := v
      rw [hu] at h
      simp only [Except.ok.injEq, Prod.mk.injEq] at h
      obtain ⟨h1, h2⟩ := h
      subst h2
      exact slotInvariant_updateFirst bid
        { status := some "Returned", returnedAt := some now, returnedBy := some an }
        (fun x => rfl) db.bookings u bs hu hinv
  · intro bid db2 h
    unfold deleteBooking at h
    cases hd : deleteFirst bid db.bookings with
    | none => rw [hd] at h; simp at h
    | some bs =>
      rw [hd] at h
      simp only [Except.ok.injEq] at h
      subst h
      exact slotInvariant_deleteFirst bid db.bookings bs hd hinv

/-- C3 counterexample: from a two-booking state satisfying the invariant,
`updateBooking` moves the second booking onto the slot of the first and the
resulting state violates the invariant. -/
theorem updateBooking_breaks_slotInvariant :
    slotInvariant exDBpair.bookings = true ∧
    (∃ r db2, updateBooking "b2" clashPatch exDBpair = .ok (r, db2) ∧
      slotInvariant db2.bookings = false) := by
  refine ⟨by decide, applyPatch clashPatch exBooking2,
    { exDBpair with bookings := [exBooking, applyPatch clashPatch exBooking2] },
    rfl, by decide⟩

/-- C3 witness: the preserved conjuncts applied on the concrete two-booking
state: a non-clashing add and a delete both keep the invariant. -/
theorem mutators_preserve_slotInvariant_witness :
    (∃ r db2, addBooking "n1" 50 exData2 exDBpair = .ok (r, db2) ∧
      slotInvariant db2.bookings = true) ∧
    (∃ db2, deleteBooking "b1" exDBpair = .ok db2 ∧
      slotInvariant db2.bookings = true) := by
  have h := mutators_preserve_slotInvariant exDBpair (by decide)
  constructor
  · refine ⟨newBookingRec "n1" 50 exData2,
      { exDBpair with bookings := exDBpair.bookings ++ [newBookingRec "n1" 50 exData2] },
      rfl, h.1 "n1" 50 exData2 _ _ rfl⟩
  · refine ⟨{ exDBpair with bookings := [exBooking2] },
      rfl, h.2.2.2 "b1" _ rfl⟩

/-- C5 (amended): `authenticate` returns the stored record of the FIRST user
row carrying the supplied username, with its password field removed, exactly
when the digest of the supplied password equals that row's stored hash; when
no row carries the username, or the first such row's hash does not match, it
returns null.  (The original claim quantifies over some matching row; with
duplicate usernames the code only consults the first, see the
counterexample.)  `authenticate` only reads the Users sheet; it performs no
write. -/
theorem authenticate_first_match (hash : String → String) (users : List UserRec)
    (un pw : String) :
    ((∀ u ∈ users, u.username ≠ un) → authenticate hash users un pw = none) ∧
    (∀ pre u post, users = pre ++ u :: post → u.username = un →
      (∀ v ∈ pre, v.username ≠ un) →
      authenticate hash users un pw =
        if hash pw = u.password then some (stripPassword u) else none) := by
  constructor
  · intro h
    unfold authenticate
    rw [List.find?_eq_none.mpr]
    intro u hu
    simp only [beq_iff_eq]
    exact h u hu
  · intro pre u post hsplit hu hpre
    unfold authenticate
    rw [hsplit, find_append_first (fun v => v.username == un) pre u post
      (beq_iff_eq.mpr hu) (fun v hv => beq_eq_false_iff_ne.mpr (hpre v hv))]
    dsimp only
    unfold verifyPassword
    by_cases hh : hash pw = u.password
    · rw [if_pos (beq_iff_eq.mpr hh), if_pos hh]
    · rw [if_neg (fun hcc => hh (beq_iff_eq.mp hcc)), if_neg hh]

/-- C5 counterexample: with two user rows sharing a username, a password
matching the second row's stored hash is rejected although some row with that
username and a matching hash exists (the digest is instantiated at a concrete
stand-in; the behaviour only depends on the stored hash values). -/
theorem authenticate_shadowed_duplicate :
    (∃ u ∈ dupUsers, u.username = "u" ∧ plainHash "a" = u.password) ∧
    authenticate plainHash dupUsers "u" "a" = none := by
  constructor
  · exact ⟨exUser2, by decide, by decide, by decide⟩
  · decide

/-- C5 witness: the first row's credentials authenticate, an unknown username
does not. -/
theorem authenticate_first_match_witness :
    authenticate plainHash dupUsers "u" "b" = some (stripPassword exUser1) ∧
    authenticate plainHash dupUsers "nobody" "b" = none := by
  constructor
  · have h := (authenticate_first_match plainHash dupUsers "u" "b").2
      [] exUser1 [exUser2] rfl (by decide) (by intro v hv; simp at hv)
    rw [h, if_pos (by decide)]
  · exact (authenticate_first_match plainHash dupUsers "nobody" "b").1 (by decide)

/-- C6: for the first Bookings row carrying the given id, `confirmReturn`
sets exactly status (to `Returned`), `returnedAt` (to the current time) and
`returnedBy` (to the supplied admin name), keeps every other field of that
row and every other row and sheet unchanged; a missing id throws, and a
thrown error performs no write in this embedding, as in the source. -/
theorem confirmReturn_spec (now : Int) (bid an : String) (db : DBState) :
    ((∀ b ∈ db.bookings, b.id ≠ bid) →
      ∃ e, confirmReturn now bid an db = .error e) ∧
    (∀ pre old post, db.bookings = pre ++ old :: post → old.id = bid →
      (∀ c ∈ pre, c.id ≠ bid) →
      ∃ u, confirmReturn now bid an db =
          .ok (u, { db with bookings := pre ++ u :: post }) ∧
        u.status = "Returned" ∧ u.returnedAt = some now ∧ u.returnedBy = some an ∧
        u.id = old.id ∧ u.userId = old.userId ∧ u.type = old.type ∧
        u.teacherName = old.teacherName ∧ u.program = old.program ∧
        u.classroom = old.classroom ∧ u.period = old.period ∧ u.date = old.date ∧
        u.equipment = old.equipment ∧ u.learningPlan = old.learningPlan ∧
        u.createdAt = old.createdAt) := by
  constructor
  · intro h
    refine ⟨"Record with ID " ++ bid ++ " not found in Bookings.", ?_⟩
    unfold confirmReturn updateRecordBookings
    rw [updateFirst_eq_none bid _ db.bookings h]
  · intro pre old post hsplit hid hpre
    refine ⟨applyPatch
      { status := some "Returned", returnedAt := some now, returnedBy := some an } old,
      ?_, rfl, rfl, rfl, rfl, rfl, rfl, rfl, rfl, rfl, rfl, rfl, rfl, rfl, rfl⟩
    unfold confirmReturn updateRecordBookings
    rw [hsplit, updateFirst_append bid _ pre old post hid hpre]

/-- C6 witness: confirming the only booking patches exactly the three return
fields; a missing id throws. -/
theorem confirmReturn_spec_witness :
    (∃ u, confirmReturn 99 "b1" "A" exDB =
        .ok (u, { exDB with bookings := [] ++ u :: [] }) ∧
      u.status = "Returned" ∧ u.returnedAt = some 99 ∧ u.returnedBy = some "A" ∧
      u.id = exBooking.id ∧ u.userId = exBooking.userId ∧ u.type = exBooking.type ∧
      u.teacherName = exBooking.teacherName ∧ u.program = exBooking.program ∧
      u.classroom = exBooking.classroom ∧ u.period = exBooking.period ∧
      u.date = exBooking.date ∧ u.equipment = exBooking.equipment ∧
      u.learningPlan = exBooking.learningPlan ∧ u.createdAt = exBooking.createdAt) ∧
    (∃ e, confirmReturn 99 "zz" "A" exDB = .error e) := by
  constructor
  · exact (confirmReturn_spec 99 "b1" "A" exDB).2 [] exBooking [] rfl rfl
      (by intro c hc; simp at hc)
  · exact (confirmReturn_spec 99 "zz" "A" exDB).1 (by decide)

/-- C7: `cancelBooking` throws when the id is absent or the stored status of
the first matching row is not `Booked`, and otherwise sets that row's status
to `Not Used`; since only the stored status is consulted, a stored `Booked`
booking stays cancellable at any instant, including instants where the
derived status is `In Use` or `Pending Return`.  A thrown error performs no
write in this embedding, as in the source. -/
theorem cancelBooking_spec (bid : String) (db : DBState) :
    ((∀ b ∈ db.bookings, b.id ≠ bid) →
      cancelBooking bid db = .error "Booking not found") ∧
    (∀ pre b post, db.bookings = pre ++ b :: post → b.id = bid →
      (∀ c ∈ pre, c.id ≠ bid) →
      (b.status ≠ "Booked" →
        cancelBooking bid db =
          .error "Cannot cancel a booking that is already in use or completed.") ∧
      (b.status = "Booked" →
        cancelBooking bid db =
          .ok ({ b with status := "Not Used" },
            { db with bookings := pre ++ { b with status := "Not Used" } :: post }) ∧
        ∀ now : Int, ((calcStatus1 now b).status = "In Use" ∨
            (calcStatus1 now b).status = "Pending Return") →
          ∃ v, cancelBooking bid db = .ok v)) := by
  constructor
  · intro h
    unfold cancelBooking
    rw [List.find?_eq_none.mpr (fun b hb hc => h b hb (beq_iff_eq.mp hc))]
  · intro pre b post hsplit hb hpre
    have hfind : db.bookings.find? (fun c => c.id == bid) = some b := by
      rw [hsplit]
      exact find_append_first _ pre b post (beq_iff_eq.mpr hb)
        (fun c hc => beq_eq_false_iff_ne.mpr (hpre c hc))
    constructor
    · intro hst
      unfold cancelBooking
      rw [hfind]
      dsimp only
      rw [if_neg (fun hc => hst (beq_iff_eq.mp hc))]
    · intro hst
      have heq : cancelBooking bid db =
          .ok ({ b with status := "Not Used" },
            { db with bookings := pre ++ { b with status := "Not Used" } :: post }) := by
        unfold cancelBooking
        rw [hfind]
        dsimp only
        rw [if_pos (beq_iff_eq.mpr hst)]
        unfold updateRecordBookings
        rw [hsplit, updateFirst_append bid _ pre b post hb hpre]
        rfl
      exact ⟨heq, fun _ _ => ⟨_, heq⟩⟩

/-- C7 witness: a missing id and a returned booking are rejected; the stored
`Booked` booking cancels to `Not Used` even at an instant where its derived
status is `Pending Return`. -/
theorem cancelBooking_spec_witness :
    cancelBooking "zz" exDB = .error "Booking not found" ∧
    cancelBooking "b3" exDBr =
      .error "Cannot cancel a booking that is already in use or completed." ∧
    cancelBooking "b1" exDB =
      .ok ({ exBooking with status := "Not Used" },
        { exDB with bookings := [] ++ { exBooking with status := "Not Used" } :: [] }) ∧
    (calcStatus1 20000 exBooking).status = "Pending Return" ∧
    (∃ v, cancelBooking "b1" exDB = .ok v) := by
  refine ⟨?_, ?_, ?_, by decide, ?_⟩
  · exact (cancelBooking_spec "zz" exDB).1 (by decide)
  · exact ((cancelBooking_spec "b3" exDBr).2 [exBooking] exReturned [] rfl rfl
      (by decide)).1 (by decide)
  · exact (((cancelBooking_spec "b1" exDB).2 [] exBooking [] rfl rfl
      (by intro c hc; simp at hc)).2 (by decide)).1
  · exact (((cancelBooking_spec "b1" exDB).2 [] exBooking [] rfl rfl
      (by intro c hc; simp at hc)).2 (by decide)).2 20000 (Or.inr (by decide))

/-- C8: `handleSaveUrl` stores a valid web-app URL under `google_script_url`
(the key the `App` component checks, so the app proceeds past setup), while
`GoogleSheetService.getScriptUrl` reads the unrelated literal URL key; hence
after completing the setup flow from any state in which that literal key is
unset, `getScriptUrl` still throws its configuration error and every service
API request fails with it. -/
theorem setup_key_mismatch (s : Storage) (url : String)
    (hvalid : isValidScriptUrl url = true)
    (hfresh : getItem s scriptUrlKey = none) :
    getItem (handleSaveUrl url s) setupKey = some url ∧
    appUrlIsSet (handleSaveUrl url s) = true ∧
    getScriptUrl (handleSaveUrl url s) =
      .error "Google Apps Script URL is not configured. Please complete the setup." ∧
    ∀ fetchUrl action,
      apiRequest fetchUrl (handleSaveUrl url s) action =
        .error "Google Apps Script URL is not configured. Please complete the setup." := by
  have hs : handleSaveUrl url s = setItem s setupKey url := by
    unfold handleSaveUrl
    rw [if_pos hvalid]
  have h1 : getItem (handleSaveUrl url s) setupKey = some url := by
    rw [hs]
    unfold getItem setItem
    rw [List.find?_cons_of_pos _ (by simp)]
    rfl
  have hfind : List.find? (fun q => q.1 == scriptUrlKey) s = none := by
    unfold getItem at hfresh
    cases hf : List.find? (fun q => q.1 == scriptUrlKey) s with
    | none => rfl
    | some q => rw [hf] at hfresh; simp at hfresh
  have h2 : getItem (handleSaveUrl url s) scriptUrlKey = none := by
    rw [hs]
    unfold getItem setItem
    rw [List.find?_cons_of_neg _ (by simp; decide)]
    rw [List.find?_eq_none.mpr]
    · rfl
    · intro q hq hcontra
      exact List.find?_eq_none.mp hfind q (List.mem_of_mem_filter hq) hcontra
  have h3 : getScriptUrl (handleSaveUrl url s) =
      .error "Google Apps Script URL is not configured. Please complete the setup." := by
    unfold getScriptUrl
    rw [h2]
  refine ⟨h1, ?_, h3, fun fetchUrl action => ?_⟩
  · unfold appUrlIsSet
    rw [h1]
    rfl
  · unfold apiRequest
    rw [h3]

/-- C8 witness: completing the setup flow in a fresh browser store leaves the
service unconfigured although the URL has been saved under the setup key. -/
theorem setup_key_mismatch_witness :
    getScriptUrl (handleSaveUrl "https://script.google.com/macros/s/abc/exec" []) =
      .error "Google Apps Script URL is not configured. Please complete the setup." ∧
    getItem (handleSaveUrl "https://script.google.com/macros/s/abc/exec" []) setupKey =
      some "https://script.google.com/macros/s/abc/exec" := by
  have h := setup_key_mismatch [] "https://script.google.com/macros/s/abc/exec"
    (by decide) rfl
  exact ⟨h.2.2.1, h.1⟩

/-- The start-date test holds exactly when the booking has a valid date on or
after the bound. -/
theorem startDateTest_iff (sd : Int) (b : BookingRec) :
    startDateTest sd b = true ↔ ∃ day, b.date = some day ∧ sd ≤ day := by
  cases hd : b.date <;> simp [startDateTest, hd]

/-- The end-date test holds exactly when the booking has a valid date on or
before the bound. -/
theorem endDateTest_iff (ed : Int) (b : BookingRec) :
    endDateTest ed b = true ↔ ∃ day, b.date = some day ∧ day ≤ ed := by
  cases hd : b.date <;> simp [endDateTest, hd]

/-- Membership in one conditional filter step. -/
theorem mem_optFilter {γ : Type} (o : Option γ) (t : γ → BookingRec → Bool)
    (l : List BookingRec) (b : BookingRec) :
    b ∈ optFilter o t l ↔ b ∈ l ∧ ∀ x, o = some x → t x b = true := by
  cases o with
  | none => simp [optFilter]
  | some x => simp [optFilter, List.mem_filter]

/-- A conditional filter step preserves sortedness. -/
theorem sorted_optFilter {γ : Type} (o : Option γ) (t : γ → BookingRec → Bool)
    (l : List BookingRec) (h : List.Sorted newerFirst l) :
    List.Sorted newerFirst (optFilter o t l) := by
  cases o with
  | none => exact h
  | some x => exact List.Pairwise.sublist (List.filter_sublist l) h

/-- Deriving a status never changes `createdAt`. -/
theorem calcStatus1_createdAt (now : Int) (b : BookingRec) :
    (calcStatus1 now b).createdAt = b.createdAt := by
  unfold calcStatus1
  dsimp only
  repeat' split
  all_goals rfl

/-- `getBookingsWithStatus` is sorted newest-first by `createdAt`. -/
theorem sorted_getBookingsWithStatus (now : Int) (db : DBState) :
    List.Sorted newerFirst (getBookingsWithStatus now db) := by
  unfold getBookingsWithStatus calculateBookingStatus sortByCreatedAtDesc
  refine List.Pairwise.map _ (fun a c h => ?_) (List.sorted_insertionSort newerFirst db.bookings)
  unfold newerFirst at h ⊢
  rw [calcStatus1_createdAt, calcStatus1_createdAt]
  exact h

/-- Sorting first does not change which derived bookings occur. -/
theorem mem_getBookingsWithStatus (now : Int) (db : DBState) (b : BookingRec) :
    b ∈ getBookingsWithStatus now db ↔ b ∈ calculateBookingStatus now db.bookings := by
  unfold getBookingsWithStatus calculateBookingStatus sortByCreatedAtDesc
  exact ((List.perm_insertionSort newerFirst db.bookings).map (calcStatus1 now)).mem_iff

/-- C9: `getReportData` returns exactly the derived-status bookings that meet
every provided filter (date on or after `startDate`, date on or before
`endDate`, equal program, equal teacher id, equipment list containing the
equipment id), with omitted filters excluding nothing, and the result is
sorted newest-first by `createdAt`. -/
theorem getReportData_spec (now : Int) (f : ReportFilters) (db : DBState) :
    (∀ b, b ∈ getReportData now f db ↔
      (b ∈ calculateBookingStatus now db.bookings ∧
        (∀ sd, f.startDate = some sd → ∃ day, b.date = some day ∧ sd ≤ day) ∧
        (∀ ed, f.endDate = some ed → ∃ day, b.date = some day ∧ day ≤ ed) ∧
        (∀ p, f.program = some p → b.program = p) ∧
        (∀ t, f.teacherId = some t → b.userId = t) ∧
        (∀ e, f.equipmentId = some e → e ∈ b.equipment))) ∧
    List.Sorted newerFirst (getReportData now f db) := by
  constructor
  · intro b
    unfold getReportData
    simp only [mem_optFilter, mem_getBookingsWithStatus, startDateTest_iff,
      endDateTest_iff, beq_iff_eq, List.elem_iff]
    tauto
  · unfold getReportData
    exact sorted_optFilter _ _ _ (sorted_optFilter _ _ _ (sorted_optFilter _ _ _
      (sorted_optFilter _ _ _ (sorted_optFilter _ _ _
        (sorted_getBookingsWithStatus now db)))))

/-- C10: every row write of `addOrUpdateRecord` and `deleteRecord` happens
while the single global script lock is held, and the lock is released when
the call ends, on success and on error alike; writes of concurrent calls to
the shared store therefore never interleave. -/
theorem writes_under_lock :
    ∀ lockOk isUpdate found : Bool,
      writesLocked false (addOrUpdateRecordEvents lockOk isUpdate found) = true ∧
      endsUnlocked false (addOrUpdateRecordEvents lockOk isUpdate found) = true ∧
      writesLocked false (deleteRecordEvents lockOk found) = true ∧
      endsUnlocked false (deleteRecordEvents lockOk found) = true := by
  decide

end SEDB
